import Mathlib

/-!
Verification of `net-network-calculator` (`src/main.py`).

The program is a CLI IPv4 network calculator.  Its computation is carried
out by Python's standard `ipaddress` module, so this file shallowly embeds
the relevant parts of that library (CPython's `ipaddress.py`) together
with the repository's own functions `calculate_network_info` and `main`.

Modelling conventions:
* Python strings are modelled as `List Char`.
* Python arbitrary-precision non-negative integers are `Nat`; the CLI's
  `cidr_mask` argument (an `argparse` `int`, possibly negative) is `Int`.
* A Python function that may raise is modelled with `Option` (a raised
  exception that the program catches becomes `none`).
* Writes to stderr (both `logging` records, which `basicConfig` sends to
  stderr, and explicit `print(..., file=sys.stderr)`) are modelled as an
  explicit list of emitted diagnostics, so that the side effects of
  `calculate_network_info` are visible in its result type.
-/

namespace NetCalc

/-! ## Python string primitives -/

/-- Python `str.split(sep)` for a single-character separator: always returns
at least one part; `"".split(sep) == ['']`. -/
def pySplit (sep : Char) : List Char → List (List Char)
  | [] => [[]]
  | c :: rest =>
    if c = sep then
      [] :: pySplit sep rest
    else
      match pySplit sep rest with
      | [] => [[c]]
      | p :: ps => (c :: p) :: ps

/-- Python `str.partition(sep)` for a single-character separator:
`(before, sep-found?, after)`. -/
def pyPartition (sep : Char) : List Char → List Char × Bool × List Char
  | [] => ([], false, [])
  | c :: rest =>
    if c = sep then ([], true, rest)
    else
      let (b, f, a) := pyPartition sep rest
      (c :: b, f, a)

/-- Python `sep.join(parts)` for a single-character separator. -/
def pyJoin (sep : Char) : List (List Char) → List Char
  | [] => []
  | [p] => p
  | p :: ps => p ++ sep :: pyJoin sep ps

/-! ## Decimal and hexadecimal formatting (Python `str(int)` and `'%x' % int`) -/

/-- The character for a decimal digit value (used by `toDecimal`). -/
def decDigitChar (d : Nat) : Char :=
  Char.ofNat (48 + d)

/-- The character for a hexadecimal digit value, lowercase as Python `'%x'`. -/
def hexDigitChar (d : Nat) : Char :=
  if d < 10 then Char.ofNat (48 + d) else Char.ofNat (87 + d)

/-- Fuel-driven accumulator loop behind `toDecimal` (structural recursion so
that the kernel can evaluate it). -/
def toDecimalCore : Nat → Nat → List Char → List Char
  | 0, _, acc => acc
  | fuel + 1, n, acc =>
    if n < 10 then decDigitChar n :: acc
    else toDecimalCore fuel (n / 10) (decDigitChar (n % 10) :: acc)

/-- Python `str(n)` for a non-negative integer: decimal digits, no sign,
no leading zeros. -/
def toDecimal (n : Nat) : List Char :=
  toDecimalCore (n + 1) n []

/-- Fuel-driven accumulator loop behind `toHex`. -/
def toHexCore : Nat → Nat → List Char → List Char
  | 0, _, acc => acc
  | fuel + 1, n, acc =>
    if n < 16 then hexDigitChar n :: acc
    else toHexCore fuel (n / 16) (hexDigitChar (n % 16) :: acc)

/-- Python `'%x' % n`: minimal lowercase hexadecimal representation. -/
def toHex (n : Nat) : List Char :=
  toHexCore (n + 1) n []

/-- Numeric value of a string of decimal digits (Python `int(s, 10)` on an
all-digit string). -/
def decValue (s : List Char) : Nat :=
  s.foldl (fun a c => a * 10 + (c.toNat - 48)) 0

/-- ASCII hexadecimal digit test, as CPython's `_HEX_DIGITS` set. -/
def isHexChar (c : Char) : Bool :=
  c.isDigit || ('a' ≤ c && c ≤ 'f') || ('A' ≤ c && c ≤ 'F')

/-- Value of one hexadecimal digit character. -/
def hexCharVal (c : Char) : Nat :=
  if c.isDigit then c.toNat - 48
  else if 'a' ≤ c then c.toNat - 87
  else c.toNat - 55

/-- Numeric value of a string of hexadecimal digits (Python `int(s, 16)` on
an all-hex-digit string). -/
def hexValue (s : List Char) : Nat :=
  s.foldl (fun a c => a * 16 + hexCharVal c) 0

/-! ## CPython `ipaddress`: IPv4 parsing

Faithful to `IPv4Address.__init__` / `_ip_int_from_string` / `_parse_octet`
of CPython ≥ 3.9.5 (ASCII decimal digits only, at most 3 characters,
no leading zeros, value at most 255, exactly four dot-separated octets,
no `'/'` anywhere in the address string). -/

/-- CPython `_BaseV4._parse_octet`. -/
def parse_octet (s : List Char) : Option Nat :=
  if s = [] then none                         -- "Empty octet not permitted"
  else if ¬ s.all Char.isDigit then none      -- `isascii() and isdigit()`
  else if 3 < s.length then none              -- "At most 3 characters permitted"
  else if s ≠ ['0'] ∧ s.headD ' ' = '0' then none  -- "Leading zeros are not permitted"
  else if 255 < decValue s then none          -- "Octet %d (> 255) not permitted"
  else some (decValue s)

/-- CPython `_BaseV4._ip_int_from_string` (split on `'.'`, exactly 4 octets,
assembled big-endian as by `int.from_bytes`). -/
def ipv4_int_from_string (s : List Char) : Option Nat :=
  match pySplit '.' s with
  | [o0, o1, o2, o3] =>
    match parse_octet o0, parse_octet o1, parse_octet o2, parse_octet o3 with
    | some a, some b, some c, some d => some (a * 2 ^ 24 + b * 2 ^ 16 + c * 2 ^ 8 + d)
    | _, _, _, _ => none
  | _ => none

/-- CPython `IPv4Address(s)` for a string argument: rejects a `'/'` in the
string, then parses the dotted quad. -/
def IPv4Address_parse (s : List Char) : Option Nat :=
  if '/' ∈ s then none
  else ipv4_int_from_string s

/-! ## CPython `ipaddress`: IPv6 parsing

Faithful to `IPv6Address.__init__` / `_BaseV6._ip_int_from_string` /
`_parse_hextet`.  Zone (scope) identifiers after `'%'` are validated as in
`IPv6Address._split_scope_id` and then discarded: no claim depends on the
scope id, only on whether a string is accepted. -/

/-- CPython `_BaseV6._parse_hextet`: only ASCII hex digits, at most 4 of
them; `int('', 16)` raises, so the empty string is rejected. -/
def parse_hextet (s : List Char) : Option Nat :=
  if ¬ s.all isHexChar then none              -- `_HEX_DIGITS.issuperset`
  else if 4 < s.length then none              -- "At most 4 characters permitted"
  else if s = [] then none                    -- `int('', 16)` raises ValueError
  else some (hexValue s)

/-- Left-to-right accumulation `ip_int = (ip_int << 16) | hextet` over a list
of hextet strings, failing if any hextet fails to parse. -/
def foldHextets (parts : List (List Char)) (init : Nat) : Option Nat :=
  parts.foldlM (fun acc h => (parse_hextet h).map fun v => (acc <<< 16) ||| v) init

/-- CPython `_BaseV6._ip_int_from_string`. -/
def ipv6_int_from_string (s : List Char) : Option Nat :=
  if s = [] then none                         -- "Address cannot be empty"
  else
    let parts := pySplit ':' s
    if parts.length < 3 then none             -- "At least 3 parts expected"
    else
      -- IPv4-style suffix: pop it and push two hextets of its halves.
      let expanded : Option (List (List Char)) :=
        if '.' ∈ parts.getLastD [] then
          match IPv4Address_parse (parts.getLastD []) with
          | none => none
          | some v4 =>
            some (parts.dropLast ++ [toHex ((v4 >>> 16) &&& 65535), toHex (v4 &&& 65535)])
        else some parts
      match expanded with
      | none => none
      | some parts =>
        if 9 < parts.length then none         -- "At most 8 colons permitted"
        else
          -- interior empty parts mark a '::' run
          let skips := (List.range parts.length).filter
            (fun i => decide (1 ≤ i) && decide (i + 1 < parts.length) && (parts.getD i [' ']).isEmpty)
          match skips with
          | [] =>
            if parts.length ≠ 8 then none     -- "Exactly 8 parts expected without '::'"
            else if parts.headD [' '] = [] then none   -- "Leading ':' only as part of '::'"
            else if parts.getLastD [' '] = [] then none -- "Trailing ':' only as part of '::'"
            else foldHextets parts 0
          | [i] =>
            let hi0 := i
            let lo0 := parts.length - i - 1
            -- leading ':' must be part of '::'
            if parts.headD [' '] = [] ∧ hi0 - 1 ≠ 0 then none
            else
              let hi := if parts.headD [' '] = [] then hi0 - 1 else hi0
              if parts.getLastD [' '] = [] ∧ lo0 - 1 ≠ 0 then none
              else
                let lo := if parts.getLastD [' '] = [] then lo0 - 1 else lo0
                if 8 ≤ hi + lo then none      -- "parts_skipped < 1"
                else
                  let skipped := 8 - (hi + lo)
                  match foldHextets (parts.take hi) 0 with
                  | none => none
                  | some hiV => foldHextets (parts.drop (parts.length - lo)) (hiV <<< (16 * skipped))
          | _ => none                         -- "At most one '::' permitted"

/-- CPython `IPv6Address._split_scope_id`: validates and strips an optional
`%zone` suffix. -/
def ipv6_split_scope (s : List Char) : Option (List Char) :=
  let (addr, found, scope) := pyPartition '%' s
  if found then
    if scope = [] ∨ '%' ∈ scope then none
    else some addr
  else some s

/-- CPython `IPv6Address(s)` for a string argument: rejects `'/'`, splits
off an optional scope id, then parses; the scope id itself is dropped
(no claim inspects it). -/
def IPv6Address_parse (s : List Char) : Option Nat :=
  if '/' ∈ s then none
  else
    match ipv6_split_scope s with
    | none => none
    | some addr => ipv6_int_from_string addr

/-! ## `ipaddress.ip_address` -/

/-- The two address classes `ipaddress.ip_address` can produce. -/
inductive PyIPAddress where
  | v4 (a : Nat)
  | v6 (a : Nat)
deriving DecidableEq

/-- CPython `ipaddress.ip_address(s)`: try `IPv4Address` first, then
`IPv6Address`, else raise (here: `none`). -/
def ip_address (s : List Char) : Option PyIPAddress :=
  match IPv4Address_parse s with
  | some a => some (.v4 a)
  | none =>
    match IPv6Address_parse s with
    | some a => some (.v6 a)
    | none => none

/-! ## `ipaddress.ip_network` -/

/-- `IPv4Network._ALL_ONES`. -/
def V4_ALL_ONES : Nat := 2 ^ 32 - 1

/-- `IPv6Network._ALL_ONES`. -/
def V6_ALL_ONES : Nat := 2 ^ 128 - 1

/-- CPython `_ip_int_from_prefix` for IPv4:
`ALL_ONES ^ (ALL_ONES >> prefixlen)`. -/
def v4netmaskOfPrefixlen (p : Nat) : Nat :=
  V4_ALL_ONES ^^^ (V4_ALL_ONES >>> p)

/-- CPython `_ip_int_from_prefix` for IPv6. -/
def v6netmaskOfPrefixlen (p : Nat) : Nat :=
  V6_ALL_ONES ^^^ (V6_ALL_ONES >>> p)

/-- CPython `_prefix_from_prefix_string` (with the class's
`_max_prefixlen`): ASCII decimal digits only (so no sign and not empty),
value within `[0, maxLen]`.  The alternative dotted-netmask branch of
`_make_netmask` is not modelled: `calculate_network_info` always builds the
mask part of the string from an `int` already validated to lie in `[0, 32]`,
so only this decimal branch is ever reached by the program. -/
def prefixlenFromString (maxLen : Nat) (t : List Char) : Option Nat :=
  if t = [] then none                         -- `''.isdigit()` is False
  else if ¬ t.all Char.isDigit then none      -- `isascii() and isdigit()`
  else if maxLen < decValue t then none       -- `0 <= prefixlen <= _max_prefixlen`
  else some (decValue t)

/-- CPython `_split_addr_prefix`: split on `'/'`, at most one allowed; when
absent the mask part is `none` (the caller uses `_max_prefixlen`). -/
def split_addr_mask (s : List Char) : Option (List Char × Option (List Char)) :=
  let parts := pySplit '/' s
  if 2 < parts.length then none               -- "Only one '/' permitted"
  else if parts.length = 2 then some (parts.headD [], parts.getLastD [])
  else some (s, none)

/-- The state of a constructed `IPv4Network` or `IPv6Network`: the (already
masked, since the program passes `strict=False`) network address together
with netmask and prefix length. -/
structure PyNetData where
  network_address : Nat
  netmask : Nat
  prefixlen : Nat
deriving DecidableEq

/-- The two network classes `ipaddress.ip_network` can produce. -/
inductive PyNetwork where
  | v4 (nw : PyNetData)
  | v6 (nw : PyNetData)
deriving DecidableEq

/-- CPython `ipaddress.ip_network(s, strict)`: try `IPv4Network`, then
`IPv6Network`, else raise (here: `none`).  Both classes split the string
with the same `_split_addr_prefix`.  With `strict=True` a set host bit
raises; with `strict=False` the address is masked down to the network. -/
def ip_network (s : List Char) (strict : Bool) : Option PyNetwork :=
  match split_addr_mask s with
  | none => none
  | some (addrS, maskS) =>
    let v4try : Option PyNetwork :=
      match IPv4Address_parse addrS,
            (match maskS with | none => some 32 | some t => prefixlenFromString 32 t) with
      | some a, some p =>
        let m := v4netmaskOfPrefixlen p
        if strict ∧ a &&& m ≠ a then none
        else some (.v4 { network_address := a &&& m, netmask := m, prefixlen := p })
      | _, _ => none
    match v4try with
    | some nw => some nw
    | none =>
      match IPv6Address_parse addrS,
            (match maskS with | none => some 128 | some t => prefixlenFromString 128 t) with
      | some a, some p =>
        let m := v6netmaskOfPrefixlen p
        if strict ∧ a &&& m ≠ a then none
        else some (.v6 { network_address := a &&& m, netmask := m, prefixlen := p })
      | _, _ => none

/-! ## Derived network attributes (`_BaseNetwork` properties) -/

/-- `hostmask` of an `IPv4Network`: `netmask ^ ALL_ONES`. -/
def v4hostmask (nw : PyNetData) : Nat := nw.netmask ^^^ V4_ALL_ONES

/-- `broadcast_address` of an `IPv4Network` as an integer:
`network_address | hostmask`. -/
def v4broadcast (nw : PyNetData) : Nat := nw.network_address ||| v4hostmask nw

/-- `num_addresses` of an `IPv4Network`:
`int(broadcast_address) - int(network_address) + 1`. -/
def v4num_addresses (nw : PyNetData) : Nat := v4broadcast nw - nw.network_address + 1

/-- `list(network.hosts())` for an `IPv4Network`: the generator yields
`range(network+1, broadcast)`; `IPv4Network.__init__` overrides `hosts`
for /31 (all two addresses) and /32 (the single address). -/
def v4hostsList (nw : PyNetData) : List Nat :=
  if nw.prefixlen = 31 then List.range' nw.network_address 2
  else if nw.prefixlen = 32 then [nw.network_address]
  else List.range' (nw.network_address + 1) (v4broadcast nw - (nw.network_address + 1))

/-- `hostmask` of an `IPv6Network`. -/
def v6hostmask (nw : PyNetData) : Nat := nw.netmask ^^^ V6_ALL_ONES

/-- `broadcast_address` of an `IPv6Network` as an integer. -/
def v6broadcast (nw : PyNetData) : Nat := nw.network_address ||| v6hostmask nw

/-- `num_addresses` of an `IPv6Network`. -/
def v6num_addresses (nw : PyNetData) : Nat := v6broadcast nw - nw.network_address + 1

/-- `list(network.hosts())` for an `IPv6Network`: the generator yields
`range(network+1, broadcast+1)` (the broadcast is included for IPv6);
`IPv6Network.__init__` overrides `hosts` for /127 and /128. -/
def v6hostsList (nw : PyNetData) : List Nat :=
  if nw.prefixlen = 127 then List.range' nw.network_address 2
  else if nw.prefixlen = 128 then [nw.network_address]
  else List.range' (nw.network_address + 1) (v6broadcast nw - nw.network_address)

/-- `network.num_addresses` for either version. -/
def PyNetwork.num_addresses : PyNetwork → Nat
  | .v4 nw => v4num_addresses nw
  | .v6 nw => v6num_addresses nw

/-- `int(network.network_address)` for either version. -/
def PyNetwork.network_int : PyNetwork → Nat
  | .v4 nw => nw.network_address
  | .v6 nw => nw.network_address

/-- `int(network.broadcast_address)` for either version. -/
def PyNetwork.broadcast_int : PyNetwork → Nat
  | .v4 nw => v4broadcast nw
  | .v6 nw => v6broadcast nw

/-- `list(network.hosts())` for either version. -/
def PyNetwork.hostsList : PyNetwork → List Nat
  | .v4 nw => v4hostsList nw
  | .v6 nw => v6hostsList nw

/-! ## Address formatting (`str(...)` of address objects) -/

/-- `str(IPv4Address(a))`: dot-joined decimal bytes, big-endian
(`'.'.join(map(str, a.to_bytes(4, 'big')))`). -/
def strV4 (a : Nat) : List Char :=
  pyJoin '.'
    [toDecimal ((a >>> 24) &&& 255), toDecimal ((a >>> 16) &&& 255),
     toDecimal ((a >>> 8) &&& 255), toDecimal (a &&& 255)]

/-- The eight 16-bit groups of an IPv6 address, each formatted with `'%x'`
(CPython `_str_from_ip_int`'s `hextets` before compression). -/
def v6hextets (a : Nat) : List (List Char) :=
  (List.range 8).map fun i => toHex ((a >>> (16 * (7 - i))) &&& 65535)

/-- The scan of CPython `_compress_hextets`: for each position, track the
current and best run of `'0'` groups; returns
`(best_start, best_len)` using `-1` start for "none" as the source does. -/
def compressScan (hx : List (List Char)) : Int × Int :=
  let st := hx.enum.foldl
    (fun (st : Int × Int × Int × Int) (ih : Nat × List Char) =>
      let (bs, bl, cs, cl) := st
      if ih.snd = ['0'] then
        let cl' := cl + 1
        let cs' := if cs = -1 then (ih.fst : Int) else cs
        if bl < cl' then (cs', cl', cs', cl') else (bs, bl, cs', cl')
      else (bs, bl, -1, 0))
    (-1, 0, -1, 0)
  (st.fst, st.snd.fst)

/-- CPython `_BaseV6._compress_hextets`: replace the longest run (of length
at least 2) of `'0'` groups by an empty group, adding empty groups at the
ends so that the join produces `'::'` there. -/
def compress_hextets (hx : List (List Char)) : List (List Char) :=
  let (bs, bl) := compressScan hx
  if 1 < bl then
    let start := bs.toNat
    let stop := start + bl.toNat
    let hx2 := if stop = hx.length then hx ++ [[]] else hx
    let hx3 := hx2.take start ++ [[]] ++ hx2.drop stop
    if start = 0 then [] :: hx3 else hx3
  else hx

/-- `str(IPv6Address(a))`: colon-join of the compressed hextets
(CPython `_string_from_ip_int`). -/
def strV6 (a : Nat) : List Char :=
  pyJoin ':' (compress_hextets (v6hextets a))

/-- `str(network.network_address)`-style formatting of an integer address
`x` belonging to network `nw` (the version decides the formatter). -/
def PyNetwork.fmtAddr : PyNetwork → Nat → List Char
  | .v4 _, x => strV4 x
  | .v6 _, x => strV6 x

/-! ## The repository's `calculate_network_info` (`src/main.py`, lines 18-65) -/

/-- The "not applicable" marker the source stores in the usable-host
fields of small networks. -/
def NA_MARKER : List Char := "N/A (Network too small)".toList

/-- One diagnostic written to stderr.  Each constructor stands for the
`logging` record plus the `print(..., file=sys.stderr)` line issued on the
corresponding path of `src/main.py`; the payloads of the Python messages
are not needed by any claim and are omitted. -/
inductive StderrDiag where
  /-- `ValueError("CIDR mask must be between 0 and 32.")` caught at line 58. -/
  | errCidrRange
  /-- `ValueError` raised inside `ipaddress.ip_network` and caught at line 58. -/
  | errNetParse
  /-- any non-`ValueError` exception caught at line 62. -/
  | errUnexpected
  /-- `ValueError` from `ipaddress.ip_address` caught in `main` (line 80). -/
  | errAddrFormat
deriving DecidableEq

/-- The dictionary returned by `calculate_network_info` on success. -/
structure NetworkInfo where
  network_address : List Char
  broadcast_address : List Char
  first_usable_host : List Char
  last_usable_host : List Char
  total_hosts : Nat
deriving DecidableEq

/-- Observable outcome of one call to `calculate_network_info`: the return
value (`None` becomes `none`) plus the diagnostics written to stderr. -/
structure CalcOut where
  result : Option NetworkInfo
  errors : List StderrDiag
deriving DecidableEq

/-- `calculate_network_info(ip_address, cidr_mask)` of `src/main.py`:
validate the CIDR range, build `f"{ip_address}/{cidr_mask}"`, construct the
network with `strict=False`, read the addresses off it, and compute the
usable-host fields from `list(network.hosts())` when `num_addresses > 2`. -/
def calculate_network_info (ip_str : List Char) (cidr_mask : Int) : CalcOut :=
  if ¬ (0 ≤ cidr_mask ∧ cidr_mask ≤ 32) then
    { result := none, errors := [.errCidrRange] }
  else
    match ip_network (ip_str ++ '/' :: toDecimal cidr_mask.toNat) false with
    | none => { result := none, errors := [.errNetParse] }
    | some nw =>
      let na := nw.fmtAddr nw.network_int
      let ba := nw.fmtAddr nw.broadcast_int
      if 2 < nw.num_addresses then
        match nw.hostsList.head?, nw.hostsList.getLast? with
        | some f, some l =>
          { result := some
              { network_address := na, broadcast_address := ba,
                first_usable_host := nw.fmtAddr f, last_usable_host := nw.fmtAddr l,
                total_hosts := nw.num_addresses },
            errors := [] }
        | _, _ =>
          -- `list(...)[0]` / `[-1]` raising IndexError would be caught by
          -- the `except Exception` branch
          { result := none, errors := [.errUnexpected] }
      else
        { result := some
            { network_address := na, broadcast_address := ba,
              first_usable_host := NA_MARKER, last_usable_host := NA_MARKER,
              total_hosts := nw.num_addresses },
          errors := [] }

/-! ## The repository's `main` (`src/main.py`, lines 67-95), after argparse -/

/-- Observable outcome of `main` once argparse has produced the address
string and the integer mask: the process exit code (0 on success, 1 on
failure), the lines printed to stdout, and the stderr diagnostics. -/
structure MainOut where
  exitCode : Nat
  stdoutLines : List (List Char)
  errors : List StderrDiag
deriving DecidableEq

/-- The five stdout lines of a successful run, with the exact labels of
`src/main.py` lines 88-92. -/
def stdoutReport (r : NetworkInfo) : List (List Char) :=
  [ "Network Address:   ".toList ++ r.network_address,
    "Broadcast Address: ".toList ++ r.broadcast_address,
    "First Usable Host: ".toList ++ r.first_usable_host,
    "Last Usable Host:  ".toList ++ r.last_usable_host,
    "Total Hosts:       ".toList ++ toDecimal r.total_hosts ]

/-- `main()` after argument parsing: validate the address with
`ipaddress.ip_address` (exit 1 on failure), call
`calculate_network_info`, print the report on success, exit 1 otherwise. -/
def mainRun (ip_str : List Char) (cidr_mask : Int) : MainOut :=
  match ip_address ip_str with
  | none => { exitCode := 1, stdoutLines := [], errors := [.errAddrFormat] }
  | some _ =>
    let info := calculate_network_info ip_str cidr_mask
    match info.result with
    | some r => { exitCode := 0, stdoutLines := stdoutReport r, errors := info.errors }
    | none => { exitCode := 1, stdoutLines := [], errors := info.errors }

/-! ## Bit-arithmetic helper lemmas -/

/-- Bitwise or of numbers with disjoint bits is addition. -/
theorem lor_eq_add_of_land_eq_zero (x : Nat) :
    ∀ y : Nat, x &&& y = 0 → x ||| y = x + y := by
  induction x using Nat.binaryRec with
  | z => intro y _; simp
  | f b x ih =>
    intro y h
    have hy : Nat.bit (y.testBit 0) (y >>> 1) = y := Nat.bit_testBit_zero_shiftRight_one y
    rw [← hy] at h ⊢
    rw [Nat.land_bit] at h
    obtain ⟨h1, h2⟩ := Nat.bit_eq_zero_iff.mp h
    rw [Nat.lor_bit, ih _ h1, Nat.bit_val, Nat.bit_val, Nat.bit_val]
    cases b <;> cases hy0 : y.testBit 0 <;> simp [hy0] at h2 ⊢ <;> omega

/-- Cancellation law for xor, used to compute the hostmask. -/
theorem xor_xor_self (x y : Nat) : (x ^^^ y) ^^^ x = y := by
  rw [Nat.xor_comm x y, Nat.xor_assoc, Nat.xor_self, Nat.xor_zero]

/-- `ALL_ONES >> p` is the low-bits mask `2 ^ (32 - p) - 1`. -/
theorem v4allones_shiftRight (p : Nat) : V4_ALL_ONES >>> p = 2 ^ (32 - p) - 1 := by
  apply Nat.eq_of_testBit_eq
  intro i
  rw [Nat.testBit_shiftRight]
  unfold V4_ALL_ONES
  rw [Nat.testBit_two_pow_sub_one, Nat.testBit_two_pow_sub_one]
  exact decide_eq_decide.mpr (by omega)

/-- Per-bit description of the IPv4 netmask: bit `i` is set exactly for
`32 - p ≤ i < 32`, i.e. the mask consists of the top `p` bits (when
`p ≤ 32`). -/
theorem v4netmask_testBit (p i : Nat) (hp : p ≤ 32) :
    (v4netmaskOfPrefixlen p).testBit i = (decide (32 - p ≤ i) && decide (i < 32)) := by
  unfold v4netmaskOfPrefixlen
  rw [Nat.testBit_xor, Nat.testBit_shiftRight]
  unfold V4_ALL_ONES
  rw [Nat.testBit_two_pow_sub_one, Nat.testBit_two_pow_sub_one]
  by_cases h1 : i < 32 <;> by_cases h2 : p + i < 32 <;>
    by_cases h3 : 32 - p ≤ i <;> simp [h1, h2, h3] <;> omega

/-- Closed arithmetic form of the IPv4 netmask. -/
theorem v4netmask_eq (p : Nat) (hp : p ≤ 32) :
    v4netmaskOfPrefixlen p = 2 ^ 32 - 2 ^ (32 - p) := by
  have hform : (2 : Nat) ^ 32 - 2 ^ (32 - p) = (2 ^ p - 1) <<< (32 - p) := by
    rw [Nat.shiftLeft_eq, Nat.sub_mul, one_mul, ← pow_add]
    congr 2
    omega
  apply Nat.eq_of_testBit_eq
  intro i
  rw [v4netmask_testBit p i hp, hform, Nat.testBit_shiftLeft,
    Nat.testBit_two_pow_sub_one]
  by_cases h1 : 32 - p ≤ i <;> by_cases h2 : i < 32 <;>
    by_cases h3 : i - (32 - p) < p <;> simp [h1, h2, h3] <;> omega

/-- Anything masked by the netmask has no bits among the low `32 - p`. -/
theorem masked_land_lowones (a p : Nat) (hp : p ≤ 32) :
    (a &&& v4netmaskOfPrefixlen p) &&& (2 ^ (32 - p) - 1) = 0 := by
  apply Nat.eq_of_testBit_eq
  intro i
  rw [Nat.testBit_and, Nat.testBit_and, v4netmask_testBit p i hp,
    Nat.testBit_two_pow_sub_one, Nat.zero_testBit]
  by_cases h1 : 32 - p ≤ i <;> by_cases h2 : i < 32 - p <;>
    first
      | omega
      | simp [h1, h2]

/-- The broadcast integer of the network built from `a` and mask `p`:
or-ing the (disjoint) hostmask is addition. -/
theorem v4broadcast_eq (a p : Nat) (hp : p ≤ 32) :
    v4broadcast { network_address := a &&& v4netmaskOfPrefixlen p,
                  netmask := v4netmaskOfPrefixlen p, prefixlen := p } =
      (a &&& v4netmaskOfPrefixlen p) + (2 ^ (32 - p) - 1) := by
  unfold v4broadcast v4hostmask
  have hhm : v4netmaskOfPrefixlen p ^^^ V4_ALL_ONES = 2 ^ (32 - p) - 1 := by
    unfold v4netmaskOfPrefixlen
    rw [xor_xor_self, v4allones_shiftRight]
  simp only [hhm]
  exact lor_eq_add_of_land_eq_zero _ _ (masked_land_lowones a p hp)

/-- `num_addresses` of the network built from `a` and mask `p` is exactly
`2 ^ (32 - p)`. -/
theorem v4num_addresses_eq (a p : Nat) (hp : p ≤ 32) :
    v4num_addresses { network_address := a &&& v4netmaskOfPrefixlen p,
                      netmask := v4netmaskOfPrefixlen p, prefixlen := p } =
      2 ^ (32 - p) := by
  unfold v4num_addresses
  rw [v4broadcast_eq a p hp]
  simp only
  have : 0 < 2 ^ (32 - p) := Nat.pos_pow_of_pos _ (by omega)
  omega

/-! ## String-plumbing helper lemmas -/

/-- Splitting a separator-free string yields the single part. -/
theorem pySplit_eq_single (sep : Char) (s : List Char) (h : sep ∉ s) :
    pySplit sep s = [s] := by
  induction s with
  | nil => rfl
  | cons c rest ih =>
    have hc : c ≠ sep := fun hcs => h (hcs ▸ List.mem_cons_self c rest)
    have hr : sep ∉ rest := fun hm => h (List.mem_cons_of_mem c hm)
    simp [pySplit, hc, ih hr]

/-- Splitting around the first separator occurrence. -/
theorem pySplit_append_sep (sep : Char) (x y : List Char) (hx : sep ∉ x) :
    pySplit sep (x ++ sep :: y) = x :: pySplit sep y := by
  induction x with
  | nil => simp [pySplit]
  | cons c rest ih =>
    have hc : c ≠ sep := fun hcs => hx (hcs ▸ List.mem_cons_self c rest)
    have hr : sep ∉ rest := fun hm => hx (List.mem_cons_of_mem c hm)
    simp only [List.cons_append, pySplit, if_neg hc, List.append_eq, ih hr]

/-- The formatted CIDR value of every mask the program can pass survives
the round trip through `_prefix_from_prefix_string`, and contains no
`'/'`. -/
theorem toDecimal_cidr_roundtrip :
    ∀ p : Nat, p < 33 →
      prefixlenFromString 32 (toDecimal p) = some p ∧ '/' ∉ toDecimal p := by
  decide

/-- A successfully parsed IPv4 address string contains no `'/'`. -/
theorem IPv4Address_parse_no_slash {s : List Char} {a : Nat}
    (h : IPv4Address_parse s = some a) : '/' ∉ s := by
  intro hmem
  unfold IPv4Address_parse at h
  simp [hmem] at h

/-- A successfully parsed octet is at most 255. -/
theorem parse_octet_le {s : List Char} {v : Nat}
    (h : parse_octet s = some v) : v ≤ 255 := by
  unfold parse_octet at h
  split at h
  · exact absurd h (by simp)
  · split at h
    · exact absurd h (by simp)
    · split at h
      · exact absurd h (by simp)
      · split at h
        · exact absurd h (by simp)
        · split at h
          · exact absurd h (by simp)
          · simp only [Option.some.injEq] at h
            omega

/-- A successfully parsed IPv4 address is a 32-bit value. -/
theorem IPv4Address_parse_lt {s : List Char} {a : Nat}
    (h : IPv4Address_parse s = some a) : a < 2 ^ 32 := by
  unfold IPv4Address_parse at h
  split at h
  · exact absurd h (by simp)
  · unfold ipv4_int_from_string at h
    split at h
    case _ o0 o1 o2 o3 _ =>
      cases h0 : parse_octet o0 <;> cases h1 : parse_octet o1 <;>
        cases h2 : parse_octet o2 <;> cases h3 : parse_octet o3 <;>
          simp [h0, h1, h2, h3] at h
      case _ v0 v1 v2 v3 =>
        have := parse_octet_le h0
        have := parse_octet_le h1
        have := parse_octet_le h2
        have := parse_octet_le h3
        omega
    · exact absurd h (by simp)

/-- Evaluation of `ipaddress.ip_network(f"{s}/{p}", strict=False)` when `s`
is a well-formed IPv4 address string and `p` a valid prefix length: the
string splits back into its two components and an `IPv4Network` results. -/
theorem ip_network_of_v4 (s : List Char) (a p : Nat)
    (hs : IPv4Address_parse s = some a) (hp : p ≤ 32) :
    ip_network (s ++ '/' :: toDecimal p) false =
      some (.v4 { network_address := a &&& v4netmaskOfPrefixlen p,
                  netmask := v4netmaskOfPrefixlen p, prefixlen := p }) := by
  obtain ⟨hround, hslashp⟩ := toDecimal_cidr_roundtrip p (by omega)
  have hsplit : pySplit '/' (s ++ '/' :: toDecimal p) = [s, toDecimal p] := by
    rw [pySplit_append_sep _ _ _ (IPv4Address_parse_no_slash hs),
      pySplit_eq_single _ _ hslashp]
  unfold ip_network split_addr_mask
  simp [hsplit, hs, hround]

/-- Full evaluation of `calculate_network_info` on a well-formed IPv4
address string and a valid prefix length: the mask is applied to the
address, the broadcast adds the host bits, the host count is
`2 ^ (32 - p)`, and the usable-host fields depend on that count. -/
theorem calculate_network_info_v4 (s : List Char) (a p : Nat)
    (hs : IPv4Address_parse s = some a) (hp : p ≤ 32) :
    calculate_network_info s (p : Int) =
      { result := some
          { network_address := strV4 (a &&& v4netmaskOfPrefixlen p),
            broadcast_address :=
              strV4 ((a &&& v4netmaskOfPrefixlen p) + (2 ^ (32 - p) - 1)),
            first_usable_host :=
              if 2 < 2 ^ (32 - p) then strV4 ((a &&& v4netmaskOfPrefixlen p) + 1)
              else NA_MARKER,
            last_usable_host :=
              if 2 < 2 ^ (32 - p) then
                strV4 ((a &&& v4netmaskOfPrefixlen p) + (2 ^ (32 - p) - 2))
              else NA_MARKER,
            total_hosts := 2 ^ (32 - p) },
        errors := [] } := by
  have hrange : ¬ ¬ (0 ≤ (p : Int) ∧ (p : Int) ≤ 32) :=
    not_not_intro ⟨Int.natCast_nonneg p, by exact_mod_cast hp⟩
  unfold calculate_network_info
  rw [if_neg hrange, Int.toNat_natCast, ip_network_of_v4 s a p hs hp]
  dsimp only [PyNetwork.fmtAddr, PyNetwork.network_int, PyNetwork.broadcast_int,
    PyNetwork.num_addresses, PyNetwork.hostsList]
  rw [v4num_addresses_eq a p hp, v4broadcast_eq a p hp]
  by_cases hnum : 2 < 2 ^ (32 - p)
  · rw [if_pos hnum]
    have hps : 32 - p ≠ 0 := by
      intro h0
      rw [h0] at hnum
      simp at hnum
    have hp30 : p ≤ 30 := by
      by_contra hgt
      have h1 : 32 - p ≤ 1 := by omega
      have := Nat.pow_le_pow_right (show 0 < 2 by omega) h1
      omega
    have hfour : 4 ≤ 2 ^ (32 - p) := by
      have h2 : 2 ≤ 32 - p := by omega
      calc 4 = 2 ^ 2 := by norm_num
        _ ≤ 2 ^ (32 - p) := Nat.pow_le_pow_right (by omega) h2
    unfold v4hostsList
    dsimp only
    rw [if_neg (by omega : ¬ p = 31), if_neg (by omega : ¬ p = 32),
      v4broadcast_eq a p hp]
    have hcount : (a &&& v4netmaskOfPrefixlen p) + (2 ^ (32 - p) - 1) -
        ((a &&& v4netmaskOfPrefixlen p) + 1) = (2 ^ (32 - p) - 3) + 1 := by
      omega
    rw [hcount, List.range'_1_concat, List.getLast?_concat]
    have hhead : (List.range' ((a &&& v4netmaskOfPrefixlen p) + 1) (2 ^ (32 - p) - 3) ++
        [(a &&& v4netmaskOfPrefixlen p) + 1 + (2 ^ (32 - p) - 3)]).head? =
        some ((a &&& v4netmaskOfPrefixlen p) + 1) := by
      rcases h3 : (2 : Nat) ^ (32 - p) - 3 with _ | m
      · simp [h3]
      · rw [List.range'_succ]
        simp
    rw [hhead]
    dsimp only
    rw [if_pos hnum, if_pos hnum]
    have hlast : (a &&& v4netmaskOfPrefixlen p) + 1 + (2 ^ (32 - p) - 3) =
        (a &&& v4netmaskOfPrefixlen p) + (2 ^ (32 - p) - 2) := by
      omega
    rw [hlast]
  · rw [if_neg hnum, if_neg hnum, if_neg hnum]

/-- The hostmask (`netmask ^ ALL_ONES`) is the low-bits mask. -/
theorem v4hostmask_eq (p : Nat) :
    v4netmaskOfPrefixlen p ^^^ V4_ALL_ONES = 2 ^ (32 - p) - 1 := by
  unfold v4netmaskOfPrefixlen
  rw [xor_xor_self, v4allones_shiftRight]

/-! ## Character-class lemmas: a formatted address is never the marker -/

/-- Decimal digit characters are digits. -/
theorem decDigitChar_isDigit : ∀ d, d < 10 → (decDigitChar d).isDigit = true := by
  decide

/-- Characters produced by the decimal formatter loop are digits (or come
from the accumulator). -/
theorem toDecimalCore_chars :
    ∀ (fuel n : Nat) (acc : List Char) (c : Char),
      c ∈ toDecimalCore fuel n acc → c.isDigit = true ∨ c ∈ acc := by
  intro fuel
  induction fuel with
  | zero => intro n acc c h; exact Or.inr h
  | succ fuel ih =>
    intro n acc c h
    unfold toDecimalCore at h
    by_cases hn : n < 10
    · rw [if_pos hn] at h
      rcases List.mem_cons.mp h with h | h
      · exact Or.inl (h ▸ decDigitChar_isDigit n hn)
      · exact Or.inr h
    · rw [if_neg hn] at h
      rcases ih (n / 10) (decDigitChar (n % 10) :: acc) c h with h | h
      · exact Or.inl h
      · rcases List.mem_cons.mp h with h | h
        · exact Or.inl (h ▸ decDigitChar_isDigit (n % 10) (Nat.mod_lt n (by omega)))
        · exact Or.inr h

/-- Every character of `toDecimal n` is a digit. -/
theorem toDecimal_chars (n : Nat) (c : Char) (h : c ∈ toDecimal n) :
    c.isDigit = true := by
  rcases toDecimalCore_chars (n + 1) n [] c h with h | h
  · exact h
  · simp at h

/-- Hexadecimal digit characters are digits or lowercase `a`-`f`. -/
theorem hexDigitChar_class :
    ∀ d, d < 16 →
      (hexDigitChar d).isDigit = true ∨ ('a' ≤ hexDigitChar d ∧ hexDigitChar d ≤ 'f') := by
  decide

/-- Characters produced by the hexadecimal formatter loop. -/
theorem toHexCore_chars :
    ∀ (fuel n : Nat) (acc : List Char) (c : Char),
      c ∈ toHexCore fuel n acc →
        c.isDigit = true ∨ ('a' ≤ c ∧ c ≤ 'f') ∨ c ∈ acc := by
  intro fuel
  induction fuel with
  | zero => intro n acc c h; exact Or.inr (Or.inr h)
  | succ fuel ih =>
    intro n acc c h
    unfold toHexCore at h
    by_cases hn : n < 16
    · rw [if_pos hn] at h
      rcases List.mem_cons.mp h with h | h
      · rcases hexDigitChar_class n hn with hc | hc
        · exact Or.inl (h ▸ hc)
        · exact Or.inr (Or.inl (h ▸ hc))
      · exact Or.inr (Or.inr h)
    · rw [if_neg hn] at h
      rcases ih (n / 16) (hexDigitChar (n % 16) :: acc) c h with h | h | h
      · exact Or.inl h
      · exact Or.inr (Or.inl h)
      · rcases List.mem_cons.mp h with h | h
        · rcases hexDigitChar_class (n % 16) (Nat.mod_lt n (by omega)) with hc | hc
          · exact Or.inl (h ▸ hc)
          · exact Or.inr (Or.inl (h ▸ hc))
        · exact Or.inr (Or.inr h)

/-- Every character of `toHex n` is a digit or lowercase `a`-`f`. -/
theorem toHex_chars (n : Nat) (c : Char) (h : c ∈ toHex n) :
    c.isDigit = true ∨ ('a' ≤ c ∧ c ≤ 'f') := by
  rcases toHexCore_chars (n + 1) n [] c h with h | h | h
  · exact Or.inl h
  · exact Or.inr h
  · simp at h

/-- Characters of a join are the separator or come from one of the parts. -/
theorem mem_pyJoin (sep : Char) :
    ∀ (ps : List (List Char)) (c : Char),
      c ∈ pyJoin sep ps → c = sep ∨ ∃ p ∈ ps, c ∈ p := by
  intro ps
  induction ps with
  | nil => intro c h; simp [pyJoin] at h
  | cons p ps ih =>
    cases ps with
    | nil => intro c h; exact Or.inr ⟨p, List.mem_cons_self p [], h⟩
    | cons q qs =>
      intro c h
      have heq : pyJoin sep (p :: q :: qs) = p ++ sep :: pyJoin sep (q :: qs) := rfl
      rw [heq] at h
      rcases List.mem_append.mp h with h | h
      · exact Or.inr ⟨p, List.mem_cons_self p _, h⟩
      · rcases List.mem_cons.mp h with h | h
        · exact Or.inl h
        · rcases ih c h with h | ⟨g, hg, hcg⟩
          · exact Or.inl h
          · exact Or.inr ⟨g, List.mem_cons_of_mem p hg, hcg⟩

/-- `str(IPv4Address(x))` is never the "N/A" marker: all its characters
are digits or dots, while the marker starts with `'N'`. -/
theorem strV4_ne_NA (x : Nat) : strV4 x ≠ NA_MARKER := by
  intro h
  have hN : 'N' ∈ strV4 x := by rw [h]; decide
  rcases mem_pyJoin '.' _ 'N' hN with h1 | ⟨g, hg, hcg⟩
  · exact absurd h1 (by decide)
  · have : 'N'.isDigit = true := by
      simp only [List.mem_cons, List.not_mem_nil, or_false] at hg
      rcases hg with h | h | h | h <;> exact toDecimal_chars _ _ (h ▸ hcg)
    exact absurd this (by decide)

/-- Every group of `compress_hextets hx` is empty or one of `hx`. -/
theorem mem_compress_hextets (hx : List (List Char)) (g : List Char)
    (h : g ∈ compress_hextets hx) : g = [] ∨ g ∈ hx := by
  unfold compress_hextets at h
  rcases hscan : compressScan hx with ⟨bs, bl⟩
  rw [hscan] at h
  dsimp only at h
  by_cases hbl : 1 < bl
  · rw [if_pos hbl] at h
    set hx2 := if bs.toNat + bl.toNat = hx.length then hx ++ [[]] else hx with hhx2
    have hx2mem : ∀ y : List Char, y ∈ hx2 → y = [] ∨ y ∈ hx := by
      intro y hy
      rw [hhx2] at hy
      by_cases hc : bs.toNat + bl.toNat = hx.length
      · rw [if_pos hc] at hy
        rcases List.mem_append.mp hy with hy | hy
        · exact Or.inr hy
        · simp at hy
          exact Or.inl hy
      · rw [if_neg hc] at hy
        exact Or.inr hy
    have hx3mem : ∀ y : List Char,
        y ∈ hx2.take bs.toNat ++ [[]] ++ hx2.drop (bs.toNat + bl.toNat) →
          y = [] ∨ y ∈ hx := by
      intro y hy
      rcases List.mem_append.mp hy with hy | hy
      · rcases List.mem_append.mp hy with hy | hy
        · exact hx2mem y (List.mem_of_mem_take hy)
        · simp at hy
          exact Or.inl hy
      · exact hx2mem y (List.mem_of_mem_drop hy)
    by_cases hz : bs.toNat = 0
    · rw [if_pos hz] at h
      rcases List.mem_cons.mp h with h | h
      · exact Or.inl h
      · exact hx3mem g h
    · rw [if_neg hz] at h
      exact hx3mem g h
  · rw [if_neg hbl] at h
    exact Or.inr h

/-- Every character of `str(IPv6Address(x))` is a colon, a digit, or a
lowercase hex letter. -/
theorem strV6_chars (x : Nat) (c : Char) (h : c ∈ strV6 x) :
    c = ':' ∨ c.isDigit = true ∨ ('a' ≤ c ∧ c ≤ 'f') := by
  rcases mem_pyJoin ':' _ c h with h1 | ⟨g, hg, hcg⟩
  · exact Or.inl h1
  · rcases mem_compress_hextets _ _ hg with hge | hgm
    · rw [hge] at hcg
      simp at hcg
    · unfold v6hextets at hgm
      rcases List.mem_map.mp hgm with ⟨i, _, hgi⟩
      exact Or.inr (toHex_chars _ c (hgi ▸ hcg))

/-- `str(IPv6Address(x))` is never the "N/A" marker. -/
theorem strV6_ne_NA (x : Nat) : strV6 x ≠ NA_MARKER := by
  intro h
  have hN : 'N' ∈ strV6 x := by rw [h]; decide
  rcases strV6_chars x 'N' hN with h1 | h1 | h1 <;> revert h1 <;> decide

/-- Formatted addresses of either version are never the marker. -/
theorem fmtAddr_ne_NA (nw : PyNetwork) (x : Nat) : nw.fmtAddr x ≠ NA_MARKER := by
  cases nw with
  | v4 _ => exact strV4_ne_NA x
  | v6 _ => exact strV6_ne_NA x

/-- `calculate_network_info` never emits the address-format diagnostic:
that one belongs to the `ipaddress.ip_address` check in `main`. -/
theorem calc_no_addrFormat (s : List Char) (p : Int) :
    StderrDiag.errAddrFormat ∉ (calculate_network_info s p).errors := by
  unfold calculate_network_info
  split
  · simp
  · split
    · simp
    · dsimp only
      split
      · split
        · simp
        · simp
      · simp

/-! ## The claims -/

/-- Claim C1: for every valid IPv4 address and prefix length in `[0, 32]`,
the netmask is the value with the top `prefixLength` bits set
(equivalently `2^32 - 2^(32-p)`), the computed network address is the
address bitwise-and the mask, the broadcast address is the network address
bitwise-or the 32-bit complement of the mask, and the network address has
no set host bits: `network AND (NOT mask) = 0`. -/
theorem claim_C1 (s : List Char) (a p : Nat)
    (hs : IPv4Address_parse s = some a) (hp : p ≤ 32) :
    v4netmaskOfPrefixlen p = 2 ^ 32 - 2 ^ (32 - p) ∧
    (∀ i, (v4netmaskOfPrefixlen p).testBit i = true ↔ (32 - p ≤ i ∧ i < 32)) ∧
    (∃ r, (calculate_network_info s (p : Int)).result = some r ∧
      r.network_address = strV4 (a &&& v4netmaskOfPrefixlen p) ∧
      r.broadcast_address =
        strV4 ((a &&& v4netmaskOfPrefixlen p) |||
          (v4netmaskOfPrefixlen p ^^^ V4_ALL_ONES))) ∧
    (a &&& v4netmaskOfPrefixlen p) &&& (v4netmaskOfPrefixlen p ^^^ V4_ALL_ONES) = 0 := by
  have hlor : (a &&& v4netmaskOfPrefixlen p) |||
      (v4netmaskOfPrefixlen p ^^^ V4_ALL_ONES) =
      (a &&& v4netmaskOfPrefixlen p) + (2 ^ (32 - p) - 1) := by
    rw [v4hostmask_eq]
    exact lor_eq_add_of_land_eq_zero _ _ (masked_land_lowones a p hp)
  refine ⟨v4netmask_eq p hp, ?_, ?_, ?_⟩
  · intro i
    rw [v4netmask_testBit p i hp]
    simp
  · rw [calculate_network_info_v4 s a p hs hp]
    exact ⟨_, rfl, rfl, by rw [hlor]⟩
  · rw [v4hostmask_eq]
    exact masked_land_lowones a p hp

/-- Witness for C1 at the spec's scenario `("10.0.0.1", 8)`. -/
theorem claim_C1_witness :
    IPv4Address_parse "10.0.0.1".toList = some 167772161 ∧ (8 : Nat) ≤ 32 ∧
    (v4netmaskOfPrefixlen 8 = 2 ^ 32 - 2 ^ (32 - 8) ∧
      (∀ i, (v4netmaskOfPrefixlen 8).testBit i = true ↔ (32 - 8 ≤ i ∧ i < 32)) ∧
      (∃ r, (calculate_network_info "10.0.0.1".toList ((8 : Nat) : Int)).result = some r ∧
        r.network_address = strV4 (167772161 &&& v4netmaskOfPrefixlen 8) ∧
        r.broadcast_address =
          strV4 ((167772161 &&& v4netmaskOfPrefixlen 8) |||
            (v4netmaskOfPrefixlen 8 ^^^ V4_ALL_ONES))) ∧
      (167772161 &&& v4netmaskOfPrefixlen 8) &&&
        (v4netmaskOfPrefixlen 8 ^^^ V4_ALL_ONES) = 0) :=
  ⟨by decide, by decide, claim_C1 _ 167772161 8 (by decide) (by decide)⟩

/-- Claim C2: for every valid input the reported total host count is
exactly `2 ^ (32 - prefixLength)`, including `prefixLength = 0` where the
count is the full `2 ^ 32` (the model uses unbounded naturals, as Python
uses unbounded ints, so there is no truncation). -/
theorem claim_C2 (s : List Char) (a p : Nat)
    (hs : IPv4Address_parse s = some a) (hp : p ≤ 32) :
    ∃ r, (calculate_network_info s (p : Int)).result = some r ∧
      r.total_hosts = 2 ^ (32 - p) := by
  rw [calculate_network_info_v4 s a p hs hp]
  exact ⟨_, rfl, rfl⟩

/-- Witness for C2 at prefix length 0, the extreme case: the count is
`2 ^ 32`. -/
theorem claim_C2_witness :
    IPv4Address_parse "1.2.3.4".toList = some 16909060 ∧ (0 : Nat) ≤ 32 ∧
    (∃ r, (calculate_network_info "1.2.3.4".toList ((0 : Nat) : Int)).result = some r ∧
      r.total_hosts = 2 ^ (32 - 0)) :=
  ⟨by decide, by decide, claim_C2 _ 16909060 0 (by decide) (by decide)⟩

/-- Claim C3: when the total host count exceeds 2, the first usable host
is the network address plus one and the last usable host is the broadcast
address minus one, so their difference is `totalHosts - 3`; when the count
is at most 2 (exactly the prefix lengths 31 and 32), both usable-host
fields carry the "N/A" marker instead. -/
theorem claim_C3 (s : List Char) (a p : Nat)
    (hs : IPv4Address_parse s = some a) (hp : p ≤ 32) :
    ∃ r, (calculate_network_info s (p : Int)).result = some r ∧
      r.total_hosts = 2 ^ (32 - p) ∧
      (2 < r.total_hosts →
        r.first_usable_host = strV4 ((a &&& v4netmaskOfPrefixlen p) + 1) ∧
        r.last_usable_host =
          strV4 ((a &&& v4netmaskOfPrefixlen p) + (2 ^ (32 - p) - 1) - 1) ∧
        ((a &&& v4netmaskOfPrefixlen p) + (2 ^ (32 - p) - 1) - 1) -
          ((a &&& v4netmaskOfPrefixlen p) + 1) = r.total_hosts - 3) ∧
      (r.total_hosts ≤ 2 →
        r.first_usable_host = NA_MARKER ∧ r.last_usable_host = NA_MARKER) ∧
      (r.total_hosts ≤ 2 ↔ 30 < p) := by
  rw [calculate_network_info_v4 s a p hs hp]
  have hiff : 2 ^ (32 - p) ≤ 2 ↔ 30 < p := by
    constructor
    · intro hle
      by_contra hgt
      have h2 : 2 ≤ 32 - p := by omega
      have := Nat.pow_le_pow_right (show 0 < 2 by omega) h2
      omega
    · intro hgt
      have h1 : 32 - p ≤ 1 := by omega
      have := Nat.pow_le_pow_right (show 0 < 2 by omega) h1
      calc 2 ^ (32 - p) ≤ 2 ^ 1 := Nat.pow_le_pow_right (by omega) h1
        _ = 2 := by norm_num
  refine ⟨_, rfl, rfl, ?_, ?_, hiff⟩
  · intro hgt
    dsimp only at hgt ⊢
    rw [if_pos hgt, if_pos hgt]
    refine ⟨rfl, ?_, ?_⟩
    · congr 1
      omega
    · omega
  · intro hle
    dsimp only at hle ⊢
    rw [if_neg (by omega), if_neg (by omega)]
    exact ⟨rfl, rfl⟩

/-- Witness for C3 at the spec's scenario `("172.16.0.5", 16)`. -/
theorem claim_C3_witness :
    IPv4Address_parse "172.16.0.5".toList = some 2886729733 ∧ (16 : Nat) ≤ 32 ∧
    (∃ r, (calculate_network_info "172.16.0.5".toList ((16 : Nat) : Int)).result = some r ∧
      r.total_hosts = 2 ^ (32 - 16) ∧
      (2 < r.total_hosts →
        r.first_usable_host = strV4 ((2886729733 &&& v4netmaskOfPrefixlen 16) + 1) ∧
        r.last_usable_host =
          strV4 ((2886729733 &&& v4netmaskOfPrefixlen 16) + (2 ^ (32 - 16) - 1) - 1) ∧
        ((2886729733 &&& v4netmaskOfPrefixlen 16) + (2 ^ (32 - 16) - 1) - 1) -
          ((2886729733 &&& v4netmaskOfPrefixlen 16) + 1) = r.total_hosts - 3) ∧
      (r.total_hosts ≤ 2 →
        r.first_usable_host = NA_MARKER ∧ r.last_usable_host = NA_MARKER) ∧
      (r.total_hosts ≤ 2 ↔ 30 < 16)) :=
  ⟨by decide, by decide, claim_C3 _ 2886729733 16 (by decide) (by decide)⟩

/-- Claim C4: the calculation accepts a non-aligned host address, silently
masks off its host bits, and returns a result identical to the one for the
aligned network address with the same prefix length. -/
theorem claim_C4 (s1 s2 : List Char) (a1 a2 p : Nat)
    (h1 : IPv4Address_parse s1 = some a1) (h2 : IPv4Address_parse s2 = some a2)
    (halign : a2 = a1 &&& v4netmaskOfPrefixlen p) (hp : p ≤ 32) :
    calculate_network_info s1 (p : Int) = calculate_network_info s2 (p : Int) ∧
    (∃ r, (calculate_network_info s1 (p : Int)).result = some r ∧
      r.network_address = strV4 (a1 &&& v4netmaskOfPrefixlen p)) := by
  have hmask : a2 &&& v4netmaskOfPrefixlen p = a1 &&& v4netmaskOfPrefixlen p := by
    rw [halign, Nat.and_assoc, Nat.and_self]
  rw [calculate_network_info_v4 s1 a1 p h1 hp,
    calculate_network_info_v4 s2 a2 p h2 hp, hmask]
  exact ⟨rfl, _, rfl, rfl⟩

/-- Witness for C4: the host address `192.168.1.77/24` and its containing
network address `192.168.1.0/24`. -/
theorem claim_C4_witness :
    IPv4Address_parse "192.168.1.77".toList = some 3232235853 ∧
    IPv4Address_parse "192.168.1.0".toList = some 3232235776 ∧
    3232235776 = 3232235853 &&& v4netmaskOfPrefixlen 24 ∧ (24 : Nat) ≤ 32 ∧
    (calculate_network_info "192.168.1.77".toList ((24 : Nat) : Int) =
        calculate_network_info "192.168.1.0".toList ((24 : Nat) : Int) ∧
      (∃ r, (calculate_network_info "192.168.1.77".toList ((24 : Nat) : Int)).result =
          some r ∧
        r.network_address = strV4 (3232235853 &&& v4netmaskOfPrefixlen 24))) :=
  ⟨by decide, by decide, by decide, by decide,
    claim_C4 _ _ 3232235853 3232235776 24 (by decide) (by decide) (by decide) (by decide)⟩

/-- Claim C5: for every integer prefix length outside `[0, 32]`,
`calculate_network_info` fails with the CIDR-range diagnostic without even
looking at the address string (so before any network arithmetic), and —
whenever the address passes `main`'s own format check — the process exits
with status 1, printing nothing to stdout. -/
theorem claim_C5 (s : List Char) (p : Int) (hout : p < 0 ∨ 32 < p) :
    calculate_network_info s p =
      { result := none, errors := [StderrDiag.errCidrRange] } ∧
    ∀ x, ip_address s = some x →
      mainRun s p =
        { exitCode := 1, stdoutLines := [], errors := [StderrDiag.errCidrRange] } := by
  have hcalc : calculate_network_info s p =
      { result := none, errors := [StderrDiag.errCidrRange] } := by
    unfold calculate_network_info
    rw [if_pos]
    intro ⟨hc1, hc2⟩
    rcases hout with h | h <;> omega
  refine ⟨hcalc, fun x hx => ?_⟩
  unfold mainRun
  rw [hx]
  dsimp only
  rw [hcalc]

/-- Witness for C5 at the spec's scenario `("192.168.1.1", 33)`. -/
theorem claim_C5_witness :
    ((33 : Int) < 0 ∨ 32 < (33 : Int)) ∧
    (calculate_network_info "192.168.1.1".toList 33 =
        { result := none, errors := [StderrDiag.errCidrRange] } ∧
      ∀ x, ip_address "192.168.1.1".toList = some x →
        mainRun "192.168.1.1".toList 33 =
          { exitCode := 1, stdoutLines := [], errors := [StderrDiag.errCidrRange] }) :=
  ⟨by decide, claim_C5 _ 33 (by decide)⟩

/-- Claim C6 (supporting theorem): the address validation of `main`
accepts the string `"::1"`, which is not four dot-separated decimal
octets — `ipaddress.ip_address` parses it as an IPv6 address — and on
input `("::1", 24)` the program does not take the invalid-address-format
failure path the claim requires (it proceeds into
`calculate_network_info` instead). -/
theorem claim_C6 :
    ip_address "::1".toList = some (PyIPAddress.v6 1) ∧
    mainRun "::1".toList 24 ≠
      { exitCode := 1, stdoutLines := [], errors := [StderrDiag.errAddrFormat] } := by
  have hacc : ip_address "::1".toList = some (PyIPAddress.v6 1) := by decide
  refine ⟨hacc, ?_⟩
  unfold mainRun
  rw [hacc]
  dsimp only
  cases hres : (calculate_network_info "::1".toList 24).result with
  | none =>
    intro h
    have herr := congrArg MainOut.errors h
    dsimp only at herr
    exact calc_no_addrFormat "::1".toList 24
      (herr ▸ List.mem_singleton.mpr rfl)
  | some r =>
    intro h
    have hexit := congrArg MainOut.exitCode h
    simp at hexit

/-- Claim C7 counterexample: the two failure kinds are not distinguishable
from the return value of `calculate_network_info`: a malformed address
(`"999.1.1.1"/24`) and an out-of-range prefix (`"192.168.1.1"/33`)
produce the identical result `None`. -/
theorem claim_C7_counterexample :
    (calculate_network_info "999.1.1.1".toList 24).result = none ∧
    (calculate_network_info "192.168.1.1".toList 33).result = none ∧
    (calculate_network_info "999.1.1.1".toList 24).result =
      (calculate_network_info "192.168.1.1".toList 33).result := by
  decide

/-- Claim C7 amended: every failure of `calculate_network_info` returns
the same undifferentiated value `None` (so the caller cannot tell the two
failure kinds apart from the result); the kinds are distinguished only by
the diagnostic the function itself writes to stderr/log, as the two
representative inputs show. -/
theorem claim_C7_amended :
    (∀ (s1 s2 : List Char) (p1 p2 : Int),
      (calculate_network_info s1 p1).result = none →
      (calculate_network_info s2 p2).result = none →
      (calculate_network_info s1 p1).result = (calculate_network_info s2 p2).result) ∧
    (calculate_network_info "999.1.1.1".toList 24).errors = [StderrDiag.errNetParse] ∧
    (calculate_network_info "192.168.1.1".toList 33).errors = [StderrDiag.errCidrRange] := by
  refine ⟨fun s1 s2 p1 p2 h1 h2 => ?_, by decide, by decide⟩
  rw [h1, h2]

/-- Witness for the amended C7 at the two representative failures. -/
theorem claim_C7_witness :
    (calculate_network_info "999.1.1.1".toList 24).result = none ∧
    (calculate_network_info "192.168.1.1".toList 33).result = none ∧
    (calculate_network_info "999.1.1.1".toList 24).result =
      (calculate_network_info "192.168.1.1".toList 33).result :=
  ⟨by decide, by decide,
    claim_C7_amended.1 _ _ 24 33 (by decide) (by decide)⟩

/-- Claim C8 counterexample: on a failing input the calculation function
does perform I/O — it writes a diagnostic to stderr (and an error-level
log record) before returning `None`. -/
theorem claim_C8_counterexample :
    (calculate_network_info "192.168.1.1".toList 33).errors ≠ [] := by
  decide

/-- Claim C8 amended: on every input on which it succeeds the calculation
function performs no I/O (its stderr/log output is empty); on failing
inputs it emits a diagnostic.  It remains referentially transparent: in
this model it is a pure function of its two arguments, so identical inputs
give identical outputs. -/
theorem claim_C8_amended (s : List Char) (p : Int)
    (h : (calculate_network_info s p).result.isSome = true) :
    (calculate_network_info s p).errors = [] := by
  have hd : (calculate_network_info s p).errors = [] ∨
      (calculate_network_info s p).result = none := by
    unfold calculate_network_info
    split
    · right; rfl
    · split
      · right; rfl
      · dsimp only
        split
        · split
          · left; rfl
          · right; rfl
        · left; rfl
  rcases hd with he | hn
  · exact he
  · rw [hn] at h
    simp at h

/-- Witness for the amended C8 at the successful input
`("192.168.1.0", 24)`. -/
theorem claim_C8_witness :
    (calculate_network_info "192.168.1.0".toList 24).result.isSome = true ∧
    (calculate_network_info "192.168.1.0".toList 24).errors = [] :=
  ⟨by decide, claim_C8_amended _ 24 (by decide)⟩

set_option maxRecDepth 100000 in
/-- Claim C9: on input `("192.168.1.0", 24)` the program succeeds and
reports network address 192.168.1.0, broadcast address 192.168.1.255,
first usable host 192.168.1.1, last usable host 192.168.1.254, and total
hosts 256. -/
theorem claim_C9 :
    mainRun "192.168.1.0".toList 24 =
      { exitCode := 0,
        stdoutLines :=
          [ "Network Address:   192.168.1.0".toList,
            "Broadcast Address: 192.168.1.255".toList,
            "First Usable Host: 192.168.1.1".toList,
            "Last Usable Host:  192.168.1.254".toList,
            "Total Hosts:       256".toList ],
        errors := [] } := by
  decide

/-- Claim C10: whenever `calculate_network_info` returns a record, the
record is complete (the type enforces all five fields), and the two
usable-host fields carry the "N/A" marker together — exactly when the
total host count is at most 2. -/
theorem claim_C10 (s : List Char) (p : Int) (r : NetworkInfo)
    (h : (calculate_network_info s p).result = some r) :
    (r.first_usable_host = NA_MARKER ↔ r.last_usable_host = NA_MARKER) ∧
    (r.first_usable_host = NA_MARKER ↔ r.total_hosts ≤ 2) := by
  unfold calculate_network_info at h
  split at h
  · simp at h
  · split at h
    · simp at h
    · dsimp only at h
      rename_i nw _
      split at h
      · rename_i hnum
        split at h
        · rename_i f l hf hl
          injection h with h
          subst h
          dsimp only
          constructor
          · exact iff_of_false (fmtAddr_ne_NA nw f) (fmtAddr_ne_NA nw l)
          · exact iff_of_false (fmtAddr_ne_NA nw f) (by omega)
        · simp at h
      · rename_i hnum
        injection h with h
        subst h
        dsimp only
        constructor
        · exact Iff.rfl
        · exact iff_of_true rfl (by omega)

/-- Witness for C10 at `("192.168.1.1", 31)`, where the marker case is
taken. -/
theorem claim_C10_witness :
    (calculate_network_info "192.168.1.1".toList 31).result =
      some { network_address := "192.168.1.0".toList,
             broadcast_address := "192.168.1.1".toList,
             first_usable_host := NA_MARKER,
             last_usable_host := NA_MARKER,
             total_hosts := 2 } ∧
    ((({ network_address := "192.168.1.0".toList,
         broadcast_address := "192.168.1.1".toList,
         first_usable_host := NA_MARKER,
         last_usable_host := NA_MARKER,
         total_hosts := 2 } : NetworkInfo).first_usable_host = NA_MARKER ↔
      ({ network_address := "192.168.1.0".toList,
         broadcast_address := "192.168.1.1".toList,
         first_usable_host := NA_MARKER,
         last_usable_host := NA_MARKER,
         total_hosts := 2 } : NetworkInfo).last_usable_host = NA_MARKER) ∧
     (({ network_address := "192.168.1.0".toList,
         broadcast_address := "192.168.1.1".toList,
         first_usable_host := NA_MARKER,
         last_usable_host := NA_MARKER,
         total_hosts := 2 } : NetworkInfo).first_usable_host = NA_MARKER ↔
      ({ network_address := "192.168.1.0".toList,
         broadcast_address := "192.168.1.1".toList,
         first_usable_host := NA_MARKER,
         last_usable_host := NA_MARKER,
         total_hosts := 2 } : NetworkInfo).total_hosts ≤ 2)) :=
  ⟨by decide,
    claim_C10 "192.168.1.1".toList 31
      { network_address := "192.168.1.0".toList,
        broadcast_address := "192.168.1.1".toList,
        first_usable_host := NA_MARKER,
        last_usable_host := NA_MARKER,
        total_hosts := 2 } (by decide)⟩

end NetCalc
